import Mathlib

/-!
Shallow embedding of the gswap trader bot trading engine, with theorems
checking the natural-language specification against the code.

Numeric values flowing through the trading logic are modelled as exact
rationals; the source performs the same arithmetic on JavaScript numbers
and BigNumber decimals.  Transport calls (HTTP quoting, pool fetches,
swap submission) are modelled as explicit oracle parameters; each
embedded function returns, alongside its result, the list of submissions
or fetches it performed, so that claims about which endpoints are hit
become provable statements.
-/

set_option maxHeartbeats 1000000

/-- Configuration fields used by the trading engine (src/config.ts,
interface BotConfig); only the fields read by the embedded functions are
carried. -/
structure BotConfig where
  preferredTokenKey : String
  galaTokenKey : String
  minimumGalaBalance : ℚ
  maxSlippage : ℚ
  tradeAmountPercentage : ℚ
  arbitrageMinProfitPercent : ℚ
  enableTrading : Bool
  deriving Repr, DecidableEq

namespace BalanceManager

/-- src/balance-manager.ts, interface TokenBalance. -/
structure TokenBalance where
  tokenKey : String
  symbol : String
  quantity : ℚ
  decimals : ℕ
  deriving Repr, DecidableEq

/-- src/balance-manager.ts, interface BalanceSummary. -/
structure BalanceSummary where
  preferredTokenBalance : ℚ
  galaTokenBalance : ℚ
  otherTokens : List TokenBalance
  totalTokens : ℕ
  deriving Repr, DecidableEq

/-- The anonymous record type pushed by getTokensToTrade:
{ token; targetToken; amount }. -/
structure TokenTrade where
  token : TokenBalance
  targetToken : String
  amount : ℚ
  deriving Repr, DecidableEq

/-- Fields a transport asset entry may expose under tokenClassKey or
tokenClass (src/balance-manager.ts, constructTokenKey); a None field
models an absent or empty (falsy) JavaScript value. -/
structure TokenClassFields where
  collection : Option String
  category : Option String
  type : Option String
  additionalKey : Option String
  deriving Repr, DecidableEq

/-- One entry of the getUserAssets response as consumed by getBalances.
The nested tokenClassKey and tokenClass shapes and the flattened shape
are all carried; quantity is already parsed to an exact rational
(parseBalance in the source is parseFloat / identity on numbers). -/
structure Asset where
  tokenClassKey : Option TokenClassFields
  tokenClass : Option TokenClassFields
  collection : Option String
  category : Option String
  type : Option String
  additionalKey : Option String
  symbol : Option String
  quantity : ℚ
  deriving Repr, DecidableEq

/-- src/balance-manager.ts, BalanceManager.constructTokenKey: resolve
token.tokenClassKey || token.tokenClass || token, then each field with
its fallback, and serialize as collection|category|type|additionalKey. -/
def constructTokenKey (token : Asset) : String :=
  let tokenClass : TokenClassFields :=
    token.tokenClassKey.getD (token.tokenClass.getD
      ⟨token.collection, token.category, token.type, token.additionalKey⟩)
  let collection := tokenClass.collection.getD (token.symbol.getD "unknown")
  let category := tokenClass.category.getD "Unit"
  let ty := tokenClass.type.getD "none"
  let additionalKey := tokenClass.additionalKey.getD "none"
  collection ++ "|" ++ category ++ "|" ++ ty ++ "|" ++ additionalKey

/-- Accumulator state of the for-loop in getBalances. -/
structure BalAcc where
  preferredTokenBalance : ℚ
  galaTokenBalance : ℚ
  otherTokens : List TokenBalance
  deriving Repr, DecidableEq

/-- One iteration of the for-loop in getBalances
(src/balance-manager.ts, lines 39-59). -/
def getBalancesStep (config : BotConfig) (acc : BalAcc) (token : Asset) : BalAcc :=
  let tokenKey := constructTokenKey token
  let balance := token.quantity
  if tokenKey = config.preferredTokenKey then
    { acc with
      preferredTokenBalance := balance
      galaTokenBalance :=
        if tokenKey = config.galaTokenKey then balance else acc.galaTokenBalance }
  else if tokenKey = config.galaTokenKey then
    { acc with galaTokenBalance := balance }
  else
    { acc with otherTokens := acc.otherTokens ++
        [⟨tokenKey, token.symbol.getD "UNKNOWN", balance, 8⟩] }

/-- src/balance-manager.ts, BalanceManager.getBalances: partition the
fetched inventory into preferred, gas and other tokens.  The page of
assets returned by the transport and its reported count are passed in
explicitly. -/
def getBalances (config : BotConfig) (assets : List Asset) (count : ℕ) :
    BalanceSummary :=
  let acc := assets.foldl (getBalancesStep config) ⟨0, 0, []⟩
  ⟨acc.preferredTokenBalance, acc.galaTokenBalance, acc.otherTokens, count⟩

/-- src/balance-manager.ts, BalanceManager.shouldMaintainGalaBalance. -/
def shouldMaintainGalaBalance (config : BotConfig) (balance : BalanceSummary) : Bool :=
  balance.galaTokenBalance < config.minimumGalaBalance

/-- src/balance-manager.ts, BalanceManager.canTradeExcessGala. -/
def canTradeExcessGala (config : BotConfig) (balance : BalanceSummary) : Bool :=
  config.minimumGalaBalance * 2 < balance.galaTokenBalance

/-- src/balance-manager.ts, BalanceManager.calculateTradeAmount.  For
GALA only the excess above the minimum is traded (halved); for other
tokens the configured percentage, dropped when at or below the 1e-6
dust threshold. -/
def calculateTradeAmount (config : BotConfig) (tokenBalance : ℚ)
    (isGala : Bool := false) : ℚ :=
  if isGala then
    let excess := tokenBalance - config.minimumGalaBalance
    if excess ≤ 0 then 0
    else excess * (config.tradeAmountPercentage / 100) * (1 / 2)
  else
    let amount := tokenBalance * (config.tradeAmountPercentage / 100)
    if amount > 1 / 1000000 then amount else 0

/-- src/balance-manager.ts, BalanceManager.getTokensToTrade: refill-gas
intents first when the GALA balance is below minimum, then DCA intents
into the preferred token, then the excess-GALA intent when the balance
exceeds twice the minimum and the preferred token differs from GALA. -/
def getTokensToTrade (config : BotConfig) (balance : BalanceSummary) :
    List TokenTrade :=
  let galaTrades : List TokenTrade :=
    if shouldMaintainGalaBalance config balance then
      balance.otherTokens.filterMap fun token =>
        let amount := calculateTradeAmount config token.quantity
        if 0 < amount then some ⟨token, config.galaTokenKey, amount⟩ else none
    else []
  let preferredTrades : List TokenTrade :=
    balance.otherTokens.filterMap fun token =>
      let amount := calculateTradeAmount config token.quantity
      if 0 < amount then some ⟨token, config.preferredTokenKey, amount⟩ else none
  let excessGalaTrades : List TokenTrade :=
    if canTradeExcessGala config balance &&
        config.preferredTokenKey != config.galaTokenKey then
      let galaAmount := calculateTradeAmount config balance.galaTokenBalance true
      if 0 < galaAmount then
        [⟨⟨config.galaTokenKey, "GALA", balance.galaTokenBalance, 8⟩,
          config.preferredTokenKey, galaAmount⟩]
      else []
    else []
  galaTrades ++ preferredTrades ++ excessGalaTrades

end BalanceManager

namespace PathFinder

/-- src/pool-data-manager.ts, interface PoolData, as consumed by the
path finder and profit calculator.  The liquidity field stands for
compositePool.pool.liquidity; the idx field models JavaScript object
identity (the position in the pool array), used by the strict
inequality pool1 !== pool2 in the two-hop cycle search. -/
structure PoolData where
  idx : ℕ
  token0 : String
  token1 : String
  fee : ℕ
  liquidity : ℚ
  deriving Repr, DecidableEq

/-- src/circular-path-finder.ts, interface CircularPath. -/
structure CircularPath where
  tokens : List String
  pools : List PoolData
  fees : List ℕ
  hops : ℕ
  deriving Repr, DecidableEq

/-- The adjacency map token -> [(neighbor, pool)], as an insertion
ordered association list mirroring a JavaScript Map. -/
abbrev AdjMap : Type := List (String × List (String × PoolData))

/-- Map.get with the || [] fallback used throughout the path finder. -/
def adjGet (m : AdjMap) (token : String) : List (String × PoolData) :=
  match m.find? (fun e => e.1 = token) with
  | some e => e.2
  | none => []

/-- Appending one edge under a key: an existing key keeps its position
and grows its list; a new key is appended at the end (JavaScript Map
insertion order). -/
def adjInsert (m : AdjMap) (key : String) (entry : String × PoolData) : AdjMap :=
  match m with
  | [] => [(key, [entry])]
  | (k, es) :: rest =>
    if k = key then (k, es ++ [entry]) :: rest
    else (k, es) :: adjInsert rest key entry

/-- src/circular-path-finder.ts, CircularPathFinder.buildAdjacencyMap:
both directions of every pool are recorded. -/
def buildAdjacencyMap (pools : List PoolData) : AdjMap :=
  pools.foldl
    (fun m pool =>
      adjInsert (adjInsert m pool.token0 (pool.token1, pool))
        pool.token1 (pool.token0, pool))
    []

/-- src/circular-path-finder.ts, CircularPathFinder.findTwoHopCycles:
a neighbor B of the base plus a return pool distinct from the outgoing
pool (reference inequality pool1 !== pool2). -/
def findTwoHopCycles (baseToken : String) (adjacencyMap : AdjMap) :
    List CircularPath :=
  (adjGet adjacencyMap baseToken).flatMap fun (e1 : String × PoolData) =>
    (adjGet adjacencyMap e1.1).filterMap fun (e2 : String × PoolData) =>
      if e2.1 = baseToken ∧ e1.2.idx ≠ e2.2.idx then
        some ⟨[baseToken, e1.1, baseToken], [e1.2, e2.2],
          [e1.2.fee, e2.2.fee], 2⟩
      else none

/-- src/circular-path-finder.ts, CircularPathFinder.findThreeHopCycles:
intermediate tokens distinct from each other and from the base; any
pool closing the cycle back to the base is accepted. -/
def findThreeHopCycles (baseToken : String) (adjacencyMap : AdjMap) :
    List CircularPath :=
  (adjGet adjacencyMap baseToken).flatMap fun (e1 : String × PoolData) =>
    if e1.1 = baseToken then []
    else
      (adjGet adjacencyMap e1.1).flatMap fun (e2 : String × PoolData) =>
        if e2.1 = baseToken ∨ e2.1 = e1.1 then []
        else
          (adjGet adjacencyMap e2.1).filterMap fun (e3 : String × PoolData) =>
            if e3.1 = baseToken then
              some ⟨[baseToken, e1.1, e2.1, baseToken], [e1.2, e2.2, e3.2],
                [e1.2.fee, e2.2.fee, e3.2.fee], 3⟩
            else none

/-- src/circular-path-finder.ts, CircularPathFinder.findFourHopCycles. -/
def findFourHopCycles (baseToken : String) (adjacencyMap : AdjMap) :
    List CircularPath :=
  (adjGet adjacencyMap baseToken).flatMap fun (e1 : String × PoolData) =>
    if e1.1 = baseToken then []
    else
      (adjGet adjacencyMap e1.1).flatMap fun (e2 : String × PoolData) =>
        if e2.1 = baseToken ∨ e2.1 = e1.1 then []
        else
          (adjGet adjacencyMap e2.1).flatMap fun (e3 : String × PoolData) =>
            if e3.1 = baseToken ∨ e3.1 = e1.1 ∨ e3.1 = e2.1 then []
            else
              (adjGet adjacencyMap e3.1).filterMap fun (e4 : String × PoolData) =>
                if e4.1 = baseToken then
                  some ⟨[baseToken, e1.1, e2.1, e3.1, baseToken],
                    [e1.2, e2.2, e3.2, e4.2],
                    [e1.2.fee, e2.2.fee, e3.2.fee, e4.2.fee], 4⟩
                else none

/-- src/circular-path-finder.ts, CircularPathFinder.findCircularPaths:
filter pools by minimum liquidity (strict), build the adjacency map,
then collect 2-, 3- and 4-hop cycles up to maxHops. -/
def findCircularPaths (baseToken : String) (maxHops : ℕ)
    (availablePools : List PoolData) (minLiquidity : ℚ) : List CircularPath :=
  let liquidPools := availablePools.filter fun pool =>
    minLiquidity < pool.liquidity
  let adjacencyMap := buildAdjacencyMap liquidPools
  (if 2 ≤ maxHops then findTwoHopCycles baseToken adjacencyMap else []) ++
  (if 3 ≤ maxHops then findThreeHopCycles baseToken adjacencyMap else []) ++
  (if 4 ≤ maxHops then findFourHopCycles baseToken adjacencyMap else [])

end PathFinder

namespace ProfitCalculator

open PathFinder

/-- src/profit-calculator.ts, interface ArbitrageOpportunity.
The timestamp is the wall clock at construction. -/
structure ArbitrageOpportunity where
  path : CircularPath
  inputAmount : ℚ
  expectedOutputAmount : ℚ
  grossProfit : ℚ
  gasEstimate : ℚ
  netProfit : ℚ
  profitPercentage : ℚ
  priceImpacts : List ℚ
  timestamp : ℕ
  deriving Repr, DecidableEq

/-- src/offline-quote.ts, OfflineQuoteEngine.estimateGasCost: a flat
0.5 GALA per swap. -/
def estimateGasCost : ℚ := 1 / 2

/-- A quote oracle standing for OfflineQuoteEngine.quoteExactInput
(which delegates the concentrated-liquidity math to the DEX SDK, outside
this repository): given a pool, the input and output tokens and an
input amount, it returns (amountOut, priceImpact). -/
def QuoteOracle : Type := PoolData → String → String → ℚ → ℚ × ℚ

/-- The hop loop of ProfitCalculator.calculateProfitability
(src/profit-calculator.ts, lines 37-63): starting at hop index i with n
hops left, quote each hop, feed the absolute value of its amountOut
into the next hop, and collect price impacts.  Missing pool or token
data at some hop (the throw at line 43) yields none. -/
def quoteHops (quote : QuoteOracle) (path : CircularPath) :
    ℕ → ℕ → ℚ → Option (ℚ × List ℚ)
  | _, 0, currentAmount => some (currentAmount, [])
  | i, n + 1, currentAmount =>
    match path.pools[i]?, path.tokens[i]?, path.tokens[i + 1]? with
    | some pool, some tokenIn, some tokenOut =>
      let q := quote pool tokenIn tokenOut currentAmount
      (quoteHops quote path (i + 1) n |q.1|).map fun r => (r.1, q.2 :: r.2)
    | _, _, _ => none

/-- src/profit-calculator.ts, ProfitCalculator.calculateProfitability:
chain the quotes through all hops, then gross profit = output − input,
gas estimate = 0.5 × hops, net profit = gross − gas, and profit
percentage = net / input × 100. -/
def calculateProfitability (quote : QuoteOracle) (path : CircularPath)
    (inputAmount : ℚ) (now : ℕ) : Option ArbitrageOpportunity :=
  (quoteHops quote path 0 path.hops inputAmount).map fun r =>
    let expectedOutputAmount := r.1
    let grossProfit := expectedOutputAmount - inputAmount
    let gasEstimate := estimateGasCost * path.hops
    let netProfit := grossProfit - gasEstimate
    let profitPercentage := netProfit / inputAmount * 100
    ⟨path, inputAmount, expectedOutputAmount, grossProfit, gasEstimate,
      netProfit, profitPercentage, r.2, now⟩

/-- src/profit-calculator.ts, ProfitCalculator.filterProfitable: keep
opportunities with positive net profit and profit percentage at or
above the threshold. -/
def filterProfitable (opportunities : List ArbitrageOpportunity)
    (minProfitPercent : ℚ) : List ArbitrageOpportunity :=
  opportunities.filter fun opp =>
    0 < opp.netProfit ∧ minProfitPercent ≤ opp.profitPercentage

/-- The comparator b.profitPercentage − a.profitPercentage of
ProfitCalculator.sortByProfitability, as the relation "a may come
before b"; Array.prototype.sort is stable, so ties keep input order. -/
def moreProfitable (a b : ArbitrageOpportunity) : Prop :=
  b.profitPercentage ≤ a.profitPercentage

instance : DecidableRel moreProfitable := fun a b =>
  inferInstanceAs (Decidable (b.profitPercentage ≤ a.profitPercentage))

instance : IsTotal ArbitrageOpportunity moreProfitable :=
  ⟨fun a b => le_total b.profitPercentage a.profitPercentage⟩

instance : IsTrans ArbitrageOpportunity moreProfitable :=
  ⟨fun _ _ _ hab hbc => le_trans hbc hab⟩

/-- src/profit-calculator.ts, ProfitCalculator.sortByProfitability:
stable sort by descending profit percentage. -/
def sortByProfitability (opportunities : List ArbitrageOpportunity) :
    List ArbitrageOpportunity :=
  opportunities.insertionSort moreProfitable

end ProfitCalculator

namespace TradingStrategy

open BalanceManager

/-- src/trading-strategy.ts, interface TradeResult. -/
structure TradeResult where
  success : Bool
  fromToken : String
  toToken : String
  amountIn : ℚ
  amountOut : Option ℚ
  transactionId : Option String
  error : Option String
  timestamp : ℕ
  deriving Repr, DecidableEq

/-- src/trading-strategy.ts, interface PoolInfo (liquidity and
sqrtPrice are numeric strings in the source, parsed with parseFloat
wherever they are compared). -/
structure PoolInfo where
  token0 : String
  token1 : String
  fee : ℕ
  liquidity : ℚ
  sqrtPrice : ℚ
  deriving Repr, DecidableEq

/-- The payload of one this.gSwap.swaps.swap submission
(src/trading-strategy.ts, lines 330-339): recorded so that claims about
which submissions happen are provable. -/
structure SwapSubmission where
  fromToken : String
  toToken : String
  fee : ℕ
  exactIn : ℚ
  amountOutMinimum : ℚ
  walletAddress : String
  deriving Repr, DecidableEq

/-- The transport-dependent inputs of one executeTrade call:
the liquid pools found by findAvailablePools (transport probing of the
three fee tiers, already restricted to positive liquidity), the output
amount of the exact-input quote (none when the quote fails or carries
no output), and the bundler outcome awaited for the submitted swap. -/
structure LiveEnv where
  pools : List PoolInfo
  quoteOut : Option ℚ
  waitSucceeds : Bool
  transactionId : String
  deriving Repr, DecidableEq

/-- The reduce picking the highest-liquidity pool
(src/trading-strategy.ts, lines 290-292). -/
def bestPoolOf (head : PoolInfo) (rest : List PoolInfo) : PoolInfo :=
  rest.foldl (fun prev curr =>
    if prev.liquidity < curr.liquidity then curr else prev) head

/-- src/trading-strategy.ts, TradingStrategy.executeTrade.  Returns the
trade result, the updated trade history, and the list of swap
submissions performed.  With trading disabled the call short-circuits
to a synthetic success (amountOut = amount × 0.98, fabricated
transaction id) recorded in history, touching no submission endpoint.
In live mode: resolve the fee tier (auto-detect picks the
highest-liquidity pool, no pool means failure), require a quoted
output, compute the slippage-bounded minimum output, submit the swap
and settle on the awaited outcome; any failure produces a non-success
result. -/
def executeTrade (config : BotConfig) (env : LiveEnv)
    (tradeHistory : List TradeResult) (now : ℕ)
    (fromToken toToken : String) (amount : ℚ) (fee : Option ℕ) :
    TradeResult × List TradeResult × List SwapSubmission :=
  if !config.enableTrading then
    let result : TradeResult :=
      ⟨true, fromToken, toToken, amount, some (amount * (98 / 100)),
        some ("mock-tx-" ++ toString now), none, now⟩
    (result, tradeHistory ++ [result], [])
  else
    let failed : String → TradeResult × List TradeResult × List SwapSubmission :=
      fun msg =>
        let result : TradeResult :=
          ⟨false, fromToken, toToken, amount, none, none, some msg, now⟩
        (result, tradeHistory ++ [result], [])
    let withFee : ℕ → TradeResult × List TradeResult × List SwapSubmission :=
      fun poolFee =>
        match env.quoteOut with
        | none => failed "Unable to get quote for trade"
        | some outputAmount =>
          let expectedOutput := |outputAmount|
          let minOutput := expectedOutput * (1 - config.maxSlippage / 100)
          let submission : SwapSubmission :=
            ⟨fromToken, toToken, poolFee, amount, minOutput, "wallet"⟩
          let result : TradeResult :=
            if env.waitSucceeds then
              ⟨true, fromToken, toToken, amount, some expectedOutput,
                some env.transactionId, none, now⟩
            else
              ⟨false, fromToken, toToken, amount, none, none,
                some "transaction failed", now⟩
          (result, tradeHistory ++ [result], [submission])
    match fee with
    | some poolFee => withFee poolFee
    | none =>
      match env.pools with
      | [] => failed ("No liquid pools found for " ++ fromToken ++
          " -> " ++ toToken)
      | p :: ps => withFee (bestPoolOf p ps).fee

/-- The comparator of the trades.sort call in
executeTradesForPreferredToken (src/trading-strategy.ts, lines
374-384), as the relation "a may come before b": a is pushed behind b
only when b targets GALA and a does not.  Array.prototype.sort is
stable, so everything else keeps input order. -/
def galaFirst (config : BotConfig) (a b : TokenTrade) : Prop :=
  ¬(a.targetToken ≠ config.galaTokenKey ∧ b.targetToken = config.galaTokenKey)

instance (config : BotConfig) : DecidableRel (galaFirst config) := fun _ _ =>
  inferInstanceAs (Decidable (¬_))

/-- src/trading-strategy.ts, TradingStrategy.executeTradesForPreferredToken:
sort the intents so GALA-targeted intents come first, then run them
serially.  With trading disabled every intent is logged and skipped.
The live execution of one intent (executeMultiHopTrade, whose transport
interactions depend on chain state) is passed in as liveExec, returning
a trade result and the submissions it performed. -/
def executeTradesForPreferredToken (config : BotConfig)
    (liveExec : TokenTrade → TradeResult × List SwapSubmission)
    (trades : List TokenTrade) : List TradeResult × List SwapSubmission :=
  let sorted := trades.insertionSort (galaFirst config)
  sorted.foldl
    (fun acc trade =>
      if !config.enableTrading then acc
      else
        let r := liveExec trade
        (acc.1 ++ [r.1], acc.2 ++ r.2))
    ([], [])

end TradingStrategy

namespace PoolDataManager

open PathFinder

/-- A cache entry (src/pool-data-manager.ts, interface CachedPool):
the pool snapshot plus its absolute expiry. -/
structure CachedPool where
  data : PoolData
  expiresAt : ℕ
  deriving Repr, DecidableEq

/-- The Map String CachedPool of PoolDataManager, as an insertion
ordered association list. -/
abbrev Cache : Type := List (String × CachedPool)

/-- src/pool-data-manager.ts, PoolDataManager.getCacheKey: normalize
token order, then token0|token1|fee. -/
def getCacheKey (token0 token1 : String) (fee : ℕ) : String :=
  let p := if token0 < token1 then (token0, token1) else (token1, token0)
  p.1 ++ "|" ++ p.2 ++ "|" ++ toString fee

/-- JavaScript Map.get. -/
def cacheGet (cache : Cache) (key : String) : Option CachedPool :=
  match (cache : List (String × CachedPool)).find? (fun e => e.1 = key) with
  | some e => some e.2
  | none => none

/-- JavaScript Map.set: replace in place, else append. -/
def cacheSet (cache : Cache) (key : String) (entry : CachedPool) : Cache :=
  match cache with
  | [] => [(key, entry)]
  | e :: rest =>
    if e.1 = key then (key, entry) :: rest
    else e :: (cacheSet rest key entry : List (String × CachedPool))

/-- src/pool-data-manager.ts, PoolDataManager.getCompositePoolData:
return the cached snapshot while Date.now() is before its expiry,
otherwise fetch (the transport call, modelled by the fetch oracle
applied to the call time) and cache it with expiry now + cacheTTL.
The boolean reports whether the transport fetch happened. -/
def getCompositePoolData (cacheTTL : ℕ) (fetch : ℕ → PoolData)
    (cache : Cache) (token0Key token1Key : String) (fee : ℕ) (now : ℕ) :
    PoolData × Cache × Bool :=
  let cacheKey := getCacheKey token0Key token1Key fee
  match cacheGet cache cacheKey with
  | some cached =>
    if now < cached.expiresAt then (cached.data, cache, false)
    else
      let poolData := fetch now
      (poolData, cacheSet cache cacheKey ⟨poolData, now + cacheTTL⟩, true)
  | none =>
    let poolData := fetch now
    (poolData, cacheSet cache cacheKey ⟨poolData, now + cacheTTL⟩, true)

/-- A sequence of getCompositePoolData calls for one unordered token
pair and fee: each call carries a flag choosing the argument order
(false = (t0,t1), true = (t1,t0)) and its wall-clock time.  Returns
the final cache and the number of transport fetches performed. -/
def runGets (cacheTTL : ℕ) (fetch : ℕ → PoolData) (t0 t1 : String) (fee : ℕ)
    (cache : Cache) : List (Bool × ℕ) → Cache × ℕ
  | [] => (cache, 0)
  | (swapArgs, t) :: calls =>
    let r :=
      if swapArgs then getCompositePoolData cacheTTL fetch cache t1 t0 fee t
      else getCompositePoolData cacheTTL fetch cache t0 t1 fee t
    let rest := runGets cacheTTL fetch t0 t1 fee r.2.1 calls
    (rest.1, (if r.2.2 then 1 else 0) + rest.2)

/-- The expiry recorded for a key, 0 when absent. -/
def expiryOf (cache : Cache) (key : String) : ℕ :=
  match cacheGet cache key with
  | some e => e.expiresAt
  | none => 0

end PoolDataManager

section Scenarios

open BalanceManager PathFinder ProfitCalculator TradingStrategy PoolDataManager

/-- Configuration of the DCA happy-path and gas-starvation cases:
preferred SILK, gas GALA, minimum gas balance 100, trade percentage 10,
slippage 5, dry-run. -/
def dcaConfig : BotConfig :=
  ⟨"SILK|Unit|none|none", "GALA|Unit|none|none", 100, 5, 10, 1, false⟩

/-- Balance summary of the DCA happy-path case: GALA 150, SILK 0,
GUSDC 50. -/
def dcaSummary : BalanceSummary :=
  ⟨0, 150, [⟨"GUSDC|Unit|none|none", "GUSDC", 50, 6⟩], 3⟩

/-- The GUSDC holding of the DCA happy-path case. -/
def gusdcToken : TokenBalance := ⟨"GUSDC|Unit|none|none", "GUSDC", 50, 6⟩

/-- The GWBTC holding of the gas-starvation case. -/
def gwbtcToken : TokenBalance := ⟨"GWBTC|Unit|none|none", "GWBTC", 1 / 10000, 8⟩

/-- Balance summary of the gas-starvation case: GALA 40, SILK 0,
GUSDC 50, GWBTC 0.0001. -/
def gasStarveSummary : BalanceSummary :=
  ⟨0, 40, [gusdcToken, gwbtcToken], 4⟩

/-- A configuration whose trade percentage is tiny (representable, for
example, by TRADE_AMOUNT_PERCENTAGE=1e-9): the excess-GALA intent it
produces falls below the 1e-6 dust threshold. -/
def dustConfig : BotConfig :=
  ⟨"SILK|Unit|none|none", "GALA|Unit|none|none", 100, 5, 1 / 1000000000, 1, false⟩

/-- Balance summary holding only GALA 201, just above twice the
minimum gas balance of dustConfig. -/
def dustSummary : BalanceSummary := ⟨0, 201, [], 2⟩

/-- The three pools of the arbitrage-scan case: (A,B,3000), (B,C,3000),
(C,A,3000), all comfortably liquid. -/
def arbPoolAB : PoolData := ⟨0, "A", "B", 3000, 1000000⟩

def arbPoolBC : PoolData := ⟨1, "B", "C", 3000, 1000000⟩

def arbPoolCA : PoolData := ⟨2, "C", "A", 3000, 1000000⟩

/-- The 3-hop circular path A → B → C → A of the arbitrage-scan case. -/
def arbPath : CircularPath :=
  ⟨["A", "B", "C", "A"], [arbPoolAB, arbPoolBC, arbPoolCA],
    [3000, 3000, 3000], 3⟩

/-- A quote oracle under which simulating 100 A through the cycle
yields 101.5 A (hop outputs 101, 102 and 101.5), with zero price
impact. -/
def arbQuote : QuoteOracle := fun pool _ _ _ =>
  if pool.idx = 0 then (101, 0)
  else if pool.idx = 1 then (102, 0)
  else (203 / 2, 0)

/-- The opportunities computed by the profit calculator for the
arbitrage-scan case (a one-element list). -/
def arbOpportunities : List ArbitrageOpportunity :=
  (calculateProfitability arbQuote arbPath 100 0).toList

/-- The pool graph of the cycle-detection case:
(A,B,500), (A,B,3000), (B,C,3000), (C,A,10000). -/
def cyclePools : List PoolData :=
  [⟨0, "A", "B", 500, 50000⟩, ⟨1, "A", "B", 3000, 50000⟩,
   ⟨2, "B", "C", 3000, 50000⟩, ⟨3, "C", "A", 10000, 50000⟩]

/-- The paths the finder returns on the cycle-detection graph with base
A and maxHops 3. -/
def cyclePaths : List CircularPath := findCircularPaths "A" 3 cyclePools 1000

/-- Two equal-percentage opportunities for the sorting claim: the first
has more hops and a later detection time than the second. -/
def tieOppA : ArbitrageOpportunity :=
  ⟨arbPath, 100, 106, 6, 3 / 2, 9 / 2, 5, [0, 0, 0], 10⟩

/-- The second tied opportunity: fewer hops (a 2-hop path) and an
earlier detection time, listed after tieOppA in the input. -/
def tieOppB : ArbitrageOpportunity :=
  ⟨⟨["A", "B", "A"], [⟨0, "A", "B", 500, 50000⟩, ⟨1, "A", "B", 3000, 50000⟩],
      [500, 3000], 2⟩, 100, 106, 6, 1, 5, 5, [0, 0], 5⟩

/-- A dry-run trade intent batch with a single intent. -/
def dryIntent : TokenTrade := ⟨gusdcToken, "SILK|Unit|none|none", 5⟩

/-- An asset entry for GALA with a nested tokenClassKey and quantity
150, for the shared preferred/gas token balance case. -/
def galaAsset : Asset :=
  ⟨some ⟨some "GALA", some "Unit", some "none", some "none"⟩, none,
    none, none, none, none, some "GALA", 150⟩

/-- A configuration whose preferred token equals the gas token. -/
def galaPreferredConfig : BotConfig :=
  ⟨"GALA|Unit|none|none", "GALA|Unit|none|none", 100, 5, 10, 1, false⟩

/-- A live executor stub for exercising the dry-run batch path (never
invoked when trading is disabled). -/
def idleLiveExec : BalanceManager.TokenTrade →
    TradingStrategy.TradeResult × List TradingStrategy.SwapSubmission :=
  fun _ => (⟨false, "", "", 0, none, none, none, 0⟩, [])

/-- A transport environment with no pools, no quote and a failing
bundler await. -/
def idleEnv : TradingStrategy.LiveEnv := ⟨[], none, false, ""⟩

/-- The dcaConfig with trading enabled, for the live slippage case. -/
def liveConfig : BotConfig :=
  ⟨"SILK|Unit|none|none", "GALA|Unit|none|none", 100, 5, 10, 1, true⟩

/-- A transport environment whose quote reports an expected output of
100 and whose submitted transaction settles successfully. -/
def quote100Env : TradingStrategy.LiveEnv := ⟨[], some 100, true, "tx-1"⟩

/-- A fetch oracle for the pool-cache case, always returning the same
snapshot of the X/Y 500 pool. -/
def fetchXY : ℕ → PathFinder.PoolData := fun _ => ⟨0, "X", "Y", 500, 1000⟩

end Scenarios

section Theorems

open BalanceManager PathFinder ProfitCalculator TradingStrategy PoolDataManager

/-- C3 counterexample: on the DCA happy-path inventory (GALA 150 with
minimum 100, GUSDC 50, trade percentage 10) the engine returns one
intent, not the two the claim expects; the excess-gas intent
(GALA→SILK, 2.5) is absent because 150 does not exceed 2 × 100. -/
theorem c3_two_intents_counterexample :
    (getTokensToTrade dcaConfig dcaSummary).length = 1 ∧
    (getTokensToTrade dcaConfig dcaSummary).length ≠ 2 := by
  constructor <;>
    norm_num [getTokensToTrade, calculateTradeAmount, shouldMaintainGalaBalance,
      canTradeExcessGala, dcaConfig, dcaSummary, gusdcToken, List.filterMap]

/-- C3 amended: on that inventory getTokensToTrade returns exactly the
single intent (GUSDC→SILK, 5); the excess-gas intent is not emitted
since the gas balance 150 does not exceed twice the minimum 100, and
there is no gas-refill intent. -/
theorem c3_dca_single_intent :
    getTokensToTrade dcaConfig dcaSummary =
      [⟨gusdcToken, "SILK|Unit|none|none", 5⟩] := by
  norm_num [getTokensToTrade, calculateTradeAmount, shouldMaintainGalaBalance,
    canTradeExcessGala, dcaConfig, dcaSummary, gusdcToken, List.filterMap]

/-- C1 counterexample: the profit calculator subtracts a flat gas
estimate of 0.5 per hop from gross profit rather than applying a 2%
multiplicative haircut.  On the 3-hop cycle whose chained simulation
turns 100 base units into 101.5, the computed net profit is 0 (gross
1.5 minus gas 1.5), not 1.47, and the opportunity is rejected at the
1.0% minimum-profit threshold instead of accepted. -/
theorem c1_haircut_counterexample :
    arbOpportunities.map (fun o => (o.netProfit, o.profitPercentage)) =
      [(0, 0)] ∧
    (0 : ℚ) ≠ 147 / 100 ∧
    filterProfitable arbOpportunities 1 = [] := by
  refine ⟨?_, by norm_num, ?_⟩ <;>
    norm_num [arbOpportunities, calculateProfitability, quoteHops, arbQuote,
      arbPath, arbPoolAB, arbPoolBC, arbPoolCA, estimateGasCost,
      filterProfitable, abs_of_pos]

/-- C1 amended: for every circular path and input amount the net profit
equals gross profit minus a flat gas estimate of 0.5 per hop (not a 2%
multiplicative haircut), and the profit percentage is net profit over
input times 100; for the 3-hop path turning 100 into 101.5 the net
profit is 0 and the percentage 0, so the opportunity is rejected both
at a 1.0% and at a 2.0% minimum-profit threshold. -/
theorem c1_net_profit_gas_subtraction :
    (∀ (quote : QuoteOracle) (path : CircularPath) (inputAmount : ℚ)
        (now : ℕ) (opp : ArbitrageOpportunity),
      calculateProfitability quote path inputAmount now = some opp →
        opp.netProfit = opp.grossProfit - estimateGasCost * path.hops ∧
        opp.profitPercentage = opp.netProfit / inputAmount * 100) ∧
    arbOpportunities.map (fun o => (o.netProfit, o.profitPercentage)) =
      [(0, 0)] ∧
    filterProfitable arbOpportunities 1 = [] ∧
    filterProfitable arbOpportunities 2 = [] := by
  refine ⟨?_, ?_, ?_, ?_⟩
  · intro quote path inputAmount now opp h
    unfold calculateProfitability at h
    cases hq : quoteHops quote path 0 path.hops inputAmount with
    | none => simp [hq] at h
    | some r => simp [hq] at h; subst h; simp
  all_goals
    norm_num [arbOpportunities, calculateProfitability, quoteHops, arbQuote,
      arbPath, arbPoolAB, arbPoolBC, arbPoolCA, estimateGasCost,
      filterProfitable, abs_of_pos]

/-- C1 witness: the general clause of the amended theorem applied to
the arbitrage-scan oracle, path and notional. -/
theorem c1_net_profit_gas_subtraction_witness :
    ∃ opp, calculateProfitability arbQuote arbPath 100 0 = some opp ∧
      opp.netProfit = opp.grossProfit - estimateGasCost * arbPath.hops := by
  have h : calculateProfitability arbQuote arbPath 100 0 =
      some ⟨arbPath, 100, 203 / 2, 3 / 2, 3 / 2, 0, 0, [0, 0, 0], 0⟩ := by
    norm_num [calculateProfitability, quoteHops, arbQuote, arbPath,
      arbPoolAB, arbPoolBC, arbPoolCA, estimateGasCost, abs_of_pos]
  exact ⟨_, h, (c1_net_profit_gas_subtraction.1 arbQuote arbPath 100 0 _ h).1⟩

/-- C2 counterexample: on the pool graph (A,B,500), (A,B,3000),
(B,C,3000), (C,A,10000) with base A and maxHops 3, the finder returns
two 2-cycles (both orderings of the two A-B pools) and four 3-cycles
(each direction of the triangle times the choice of A-B pool), six
paths in total, not one 2-cycle, three 3-cycles and four paths. -/
theorem c2_cycle_count_counterexample :
    (cyclePaths.filter (fun p => p.hops = 2)).length = 2 ∧
    (cyclePaths.filter (fun p => p.hops = 3)).length = 4 ∧
    cyclePaths.length ≠ 4 := by
  refine ⟨?_, ?_, ?_⟩ <;>
    simp +decide [cyclePaths, cyclePools, findCircularPaths, buildAdjacencyMap,
      adjInsert, adjGet, findTwoHopCycles, findThreeHopCycles,
      findFourHopCycles, List.find?, List.filterMap, List.flatMap]

/-- C2 amended: on that graph the finder returns exactly six paths, in
order: the 2-cycle A→B→A through the 500 then the 3000 pool, the
2-cycle through the 3000 then the 500 pool, the 3-cycles A→B→C→A for
each A-B pool choice, and the 3-cycles A→C→B→A for each A-B pool
choice. -/
theorem c2_cycle_enumeration :
    cyclePaths.map (fun p => (p.tokens, p.fees, p.hops)) =
      [(["A", "B", "A"], [500, 3000], 2),
       (["A", "B", "A"], [3000, 500], 2),
       (["A", "B", "C", "A"], [500, 3000, 10000], 3),
       (["A", "B", "C", "A"], [3000, 3000, 10000], 3),
       (["A", "C", "B", "A"], [10000, 3000, 500], 3),
       (["A", "C", "B", "A"], [10000, 3000, 3000], 3)] := by
  simp +decide [cyclePaths, cyclePools, findCircularPaths, buildAdjacencyMap,
    adjInsert, adjGet, findTwoHopCycles, findThreeHopCycles,
    findFourHopCycles, List.find?, List.filterMap, List.flatMap]

/-- Case analysis for membership in getTokensToTrade: an intent is a
gas-refill intent from some other token, a DCA intent from some other
token, or the excess-GALA intent (the latter only when the preferred
token differs from GALA), always with a positive amount. -/
lemma mem_getTokensToTrade {config : BotConfig} {balance : BalanceSummary}
    {trade : TokenTrade} (h : trade ∈ getTokensToTrade config balance) :
    (∃ t ∈ balance.otherTokens,
      trade = ⟨t, config.galaTokenKey, calculateTradeAmount config t.quantity⟩ ∧
      0 < calculateTradeAmount config t.quantity) ∨
    (∃ t ∈ balance.otherTokens,
      trade = ⟨t, config.preferredTokenKey,
        calculateTradeAmount config t.quantity⟩ ∧
      0 < calculateTradeAmount config t.quantity) ∨
    (trade = ⟨⟨config.galaTokenKey, "GALA", balance.galaTokenBalance, 8⟩,
        config.preferredTokenKey,
        calculateTradeAmount config balance.galaTokenBalance true⟩ ∧
      0 < calculateTradeAmount config balance.galaTokenBalance true ∧
      config.preferredTokenKey ≠ config.galaTokenKey) := by
  unfold getTokensToTrade at h
  rw [List.mem_append, List.mem_append] at h
  rcases h with (h | h) | h
  · left
    split at h
    · rw [List.mem_filterMap] at h
      obtain ⟨t, ht, heq⟩ := h
      refine ⟨t, ht, ?_⟩
      dsimp only at heq
      split at heq
      · cases heq
        exact ⟨rfl, by assumption⟩
      · cases heq
    · cases h
  · right; left
    rw [List.mem_filterMap] at h
    obtain ⟨t, ht, heq⟩ := h
    refine ⟨t, ht, ?_⟩
    dsimp only at heq
    split at heq
    · cases heq
      exact ⟨rfl, by assumption⟩
    · cases heq
  · right; right
    split at h
    · next hcond =>
      rw [Bool.and_eq_true, bne_iff_ne] at hcond
      dsimp only at h
      split at h
      · rw [List.mem_singleton] at h
        exact ⟨h, by assumption, hcond.2⟩
      · cases h
    · cases h

/-- The non-GALA branch of calculateTradeAmount returns 0 or an amount
strictly above the 1e-6 dust threshold. -/
lemma calculateTradeAmount_dust (config : BotConfig) (q : ℚ) :
    calculateTradeAmount config q = 0 ∨
    1 / 1000000 < calculateTradeAmount config q := by
  unfold calculateTradeAmount
  simp only [Bool.false_eq_true, if_false]
  split
  · right; assumption
  · left; rfl

/-- C5: whenever the preferred token key equals the gas token key, no
intent produced by getTokensToTrade has the gas token as its source
(the excess-gas intent is never emitted), for every balance summary
whose other-token list respects the data-model invariant of excluding
the gas token, regardless of the gas balance. -/
theorem c5_no_gas_source_when_preferred_is_gas
    (config : BotConfig) (balance : BalanceSummary)
    (hpg : config.preferredTokenKey = config.galaTokenKey)
    (hother : ∀ t ∈ balance.otherTokens, t.tokenKey ≠ config.galaTokenKey) :
    ∀ trade ∈ getTokensToTrade config balance,
      trade.token.tokenKey ≠ config.galaTokenKey := by
  intro trade htrade
  rcases mem_getTokensToTrade htrade with ⟨t, ht, heq, _⟩ | ⟨t, ht, heq, _⟩ |
    ⟨_, _, hne⟩
  · rw [heq]; exact hother t ht
  · rw [heq]; exact hother t ht
  · exact absurd hpg hne

/-- C5 witness: with preferred = gas = GALA and a GUSDC holding of 50,
the single DCA intent emitted does not spend the gas token. -/
theorem c5_no_gas_source_witness :
    galaPreferredConfig.preferredTokenKey = galaPreferredConfig.galaTokenKey ∧
    (⟨gusdcToken, "GALA|Unit|none|none", 5⟩ : TokenTrade).token.tokenKey ≠
      galaPreferredConfig.galaTokenKey :=
  ⟨rfl,
    c5_no_gas_source_when_preferred_is_gas galaPreferredConfig
      ⟨0, 300, [gusdcToken], 2⟩ rfl
      (by intro t ht; rw [List.mem_singleton] at ht; subst ht; decide)
      ⟨gusdcToken, "GALA|Unit|none|none", 5⟩
      (by
        have : getTokensToTrade galaPreferredConfig ⟨0, 300, [gusdcToken], 2⟩ =
            [⟨gusdcToken, "GALA|Unit|none|none", 5⟩] := by
          norm_num [getTokensToTrade, calculateTradeAmount,
            shouldMaintainGalaBalance, canTradeExcessGala,
            galaPreferredConfig, gusdcToken, List.filterMap]
        rw [this]; exact List.mem_singleton.mpr rfl)⟩

/-- C6 counterexample: with a trade percentage of 1e-9 (allowed by the
configuration surface) and a GALA balance of 201 against a minimum of
100, the excess-GALA intent carries amount 101/200000000000, far below
the 1e-6 dust threshold, yet it is emitted: the dust filter does not
apply to the gas-sourced intent. -/
theorem c6_dust_threshold_counterexample :
    (getTokensToTrade dustConfig dustSummary).map (fun t => t.amount) =
      [101 / 200000000000] ∧
    ¬(1 / 1000000 < (101 / 200000000000 : ℚ)) := by
  refine ⟨?_, by norm_num⟩
  simp +decide [getTokensToTrade, calculateTradeAmount,
    shouldMaintainGalaBalance, canTradeExcessGala, dustConfig, dustSummary,
    List.filterMap]
  norm_num

/-- C6 amended: every intent has a strictly positive amount, and every
intent whose source is not the gas token has an amount strictly above
the 1e-6 dust threshold (the gas-sourced excess intent is only
guaranteed positive); in the gas-starvation inventory (GUSDC 50,
GWBTC 0.0001, trade percentage 10) the refill intents of 5 and 1e-5
come first and the DCA intents of 5 and 1e-5 follow, none dropped. -/
theorem c6_dust_threshold_amended :
    (∀ (config : BotConfig) (balance : BalanceSummary),
      ∀ trade ∈ getTokensToTrade config balance,
        0 < trade.amount ∧
        (trade.token.tokenKey ≠ config.galaTokenKey →
          1 / 1000000 < trade.amount)) ∧
    (getTokensToTrade dcaConfig gasStarveSummary).map
        (fun t => (t.token.tokenKey, t.targetToken, t.amount)) =
      [("GUSDC|Unit|none|none", "GALA|Unit|none|none", 5),
       ("GWBTC|Unit|none|none", "GALA|Unit|none|none", 1 / 100000),
       ("GUSDC|Unit|none|none", "SILK|Unit|none|none", 5),
       ("GWBTC|Unit|none|none", "SILK|Unit|none|none", 1 / 100000)] := by
  constructor
  · intro config balance trade htrade
    rcases mem_getTokensToTrade htrade with ⟨t, _, heq, hpos⟩ |
      ⟨t, _, heq, hpos⟩ | ⟨heq, hpos, _⟩
    · subst heq
      refine ⟨hpos, fun _ => ?_⟩
      rcases calculateTradeAmount_dust config t.quantity with h0 | h0
      · rw [h0] at hpos; exact absurd hpos (lt_irrefl 0)
      · exact h0
    · subst heq
      refine ⟨hpos, fun _ => ?_⟩
      rcases calculateTradeAmount_dust config t.quantity with h0 | h0
      · rw [h0] at hpos; exact absurd hpos (lt_irrefl 0)
      · exact h0
    · subst heq
      exact ⟨hpos, fun hne => absurd rfl hne⟩
  · simp +decide [getTokensToTrade, calculateTradeAmount,
      shouldMaintainGalaBalance, canTradeExcessGala, dcaConfig,
      gasStarveSummary, gusdcToken, gwbtcToken, List.filterMap]
    norm_num

/-- C6 witness: the universal clause of the amended theorem applied to
the DCA happy-path inventory and its single intent. -/
theorem c6_dust_threshold_witness :
    0 < (⟨gusdcToken, "SILK|Unit|none|none", 5⟩ : TokenTrade).amount ∧
    ((⟨gusdcToken, "SILK|Unit|none|none", 5⟩ : TokenTrade).token.tokenKey ≠
        dcaConfig.galaTokenKey →
      1 / 1000000 < (⟨gusdcToken, "SILK|Unit|none|none", 5⟩ : TokenTrade).amount) :=
  c6_dust_threshold_amended.1 dcaConfig dcaSummary
    ⟨gusdcToken, "SILK|Unit|none|none", 5⟩
    (by rw [c3_dca_single_intent]; exact List.mem_singleton.mpr rfl)

/-- C4 counterexample: with trading disabled, a batch of one intent
produces no recorded trade result at all (the batch loop logs and
skips each intent), contradicting the claim that every intent in the
batch yields a recorded synthetic success. -/
theorem c4_dry_run_batch_counterexample :
    executeTradesForPreferredToken dcaConfig idleLiveExec [dryIntent] =
      ([], []) ∧
    [dryIntent].length = 1 := by
  constructor
  · rfl
  · rfl

/-- C4 amended: with trading disabled the batch executor calls no
submission endpoint and skips every intent, returning no trade results
(nothing is recorded through the batch path); a direct executeTrade
call in dry-run mode short-circuits to a synthetic success with
amountOut = amount × 0.98 and a fabricated transaction id, appended to
the trade history, with no submission. -/
theorem c4_dry_run_behavior :
    (∀ (config : BotConfig)
        (liveExec : TokenTrade → TradeResult × List SwapSubmission)
        (trades : List TokenTrade),
      config.enableTrading = false →
      executeTradesForPreferredToken config liveExec trades = ([], [])) ∧
    (∀ (config : BotConfig) (env : LiveEnv) (hist : List TradeResult)
        (now : ℕ) (fromToken toToken : String) (amount : ℚ) (fee : Option ℕ),
      config.enableTrading = false →
      executeTrade config env hist now fromToken toToken amount fee =
        (⟨true, fromToken, toToken, amount, some (amount * (98 / 100)),
            some ("mock-tx-" ++ toString now), none, now⟩,
         hist ++ [⟨true, fromToken, toToken, amount, some (amount * (98 / 100)),
            some ("mock-tx-" ++ toString now), none, now⟩], [])) := by
  constructor
  · intro config liveExec trades hcfg
    unfold executeTradesForPreferredToken
    rw [hcfg]
    exact List.foldl_fixed' (fun _ => rfl) _
  · intro config env hist now fromToken toToken amount fee hcfg
    unfold executeTrade
    rw [hcfg]
    rfl

/-- C4 witness: the amended clauses applied to the single-intent batch
and to a direct dry-run call. -/
theorem c4_dry_run_behavior_witness :
    executeTradesForPreferredToken dcaConfig idleLiveExec [dryIntent] =
      ([], []) ∧
    (executeTrade dcaConfig idleEnv [] 7 "GUSDC|Unit|none|none"
        "SILK|Unit|none|none" 5 none).1 =
      ⟨true, "GUSDC|Unit|none|none", "SILK|Unit|none|none", 5,
        some (5 * (98 / 100)), some ("mock-tx-" ++ toString 7), none, 7⟩ := by
  constructor
  · exact c4_dry_run_behavior.1 dcaConfig idleLiveExec [dryIntent] rfl
  · rw [c4_dry_run_behavior.2 dcaConfig idleEnv [] 7 "GUSDC|Unit|none|none"
      "SILK|Unit|none|none" 5 none rfl]

/-- C7: for every live executeTrade call that reaches submission (a
quote is available and a fee tier is given or at least one liquid pool
was found), exactly one swap is submitted, with exactIn equal to the
input amount and amountOutMinimum equal to the quoted expected output
times (1 − maxSlippage/100); in particular 100 × (1 − 5/100) = 95. -/
theorem c7_slippage_minimum_output :
    (∀ (config : BotConfig) (env : LiveEnv) (hist : List TradeResult)
        (now : ℕ) (fromToken toToken : String) (amount : ℚ) (fee : Option ℕ)
        (q : ℚ),
      config.enableTrading = true →
      env.quoteOut = some q →
      (fee.isSome ∨ env.pools ≠ []) →
      (executeTrade config env hist now fromToken toToken amount fee).2.2.map
          (fun s => (s.exactIn, s.amountOutMinimum)) =
        [(amount, |q| * (1 - config.maxSlippage / 100))]) ∧
    (100 : ℚ) * (1 - 5 / 100) = 95 := by
  constructor
  · intro config env hist now fromToken toToken amount fee q hcfg hq hfee
    unfold executeTrade
    rw [hcfg]
    cases fee with
    | some poolFee => simp [hq]
    | none =>
      cases hp : env.pools with
      | nil =>
        rcases hfee with h | h
        · simp at h
        · exact absurd hp h
      | cons p ps => simp [hq]
  · norm_num

/-- C7 witness: with maxSlippage 5 and a quoted expected output of 100,
the submission carries exactIn 10 and amountOutMinimum 95. -/
theorem c7_slippage_minimum_output_witness :
    (executeTrade liveConfig quote100Env [] 0 "GUSDC|Unit|none|none"
        "SILK|Unit|none|none" 10 (some 3000)).2.2.map
      (fun s => (s.exactIn, s.amountOutMinimum)) = [(10, 95)] := by
  have h := c7_slippage_minimum_output.1 liveConfig quote100Env [] 0
    "GUSDC|Unit|none|none" "SILK|Unit|none|none" 10 (some 3000) 100 rfl rfl
    (Or.inl rfl)
  rw [h]
  norm_num [liveConfig]

/-- The balance fold keeps the preferred balance untouched over assets
whose constructed key is not the preferred key. -/
lemma getBalances_foldl_no_match (config : BotConfig) :
    ∀ (assets : List Asset) (acc : BalAcc),
      (∀ a ∈ assets, constructTokenKey a ≠ config.preferredTokenKey) →
      (assets.foldl (getBalancesStep config) acc).preferredTokenBalance =
        acc.preferredTokenBalance
  | [], _, _ => rfl
  | x :: xs, acc, h => by
    rw [List.foldl_cons]
    rw [getBalances_foldl_no_match config xs _
      (fun a ha => h a (List.mem_cons_of_mem x ha))]
    unfold getBalancesStep
    have hx := h x (List.mem_cons_self x xs)
    rw [if_neg hx]
    split <;> rfl

/-- The balance fold records the quantity of the unique asset whose
constructed key is the preferred key. -/
lemma getBalances_foldl_single_match (config : BotConfig) (a : Asset) :
    ∀ (assets : List Asset) (acc : BalAcc),
      assets.filter
          (fun x => constructTokenKey x = config.preferredTokenKey) = [a] →
      (assets.foldl (getBalancesStep config) acc).preferredTokenBalance =
        a.quantity
  | [], _, h => by cases h
  | x :: xs, acc, h => by
    rw [List.filter_cons] at h
    by_cases hx : constructTokenKey x = config.preferredTokenKey
    · rw [if_pos (by simpa using hx)] at h
      have hxa : x = a := (List.cons_eq_cons.mp h).1
      have hrest : xs.filter
          (fun y => constructTokenKey y = config.preferredTokenKey) = [] :=
        (List.cons_eq_cons.mp h).2
      rw [List.foldl_cons]
      rw [getBalances_foldl_no_match config xs _
        (fun b hb => by
          intro hbk
          have : b ∈ xs.filter
              (fun y => constructTokenKey y = config.preferredTokenKey) :=
            List.mem_filter.mpr ⟨hb, by simpa using hbk⟩
          rw [hrest] at this
          cases this)]
      unfold getBalancesStep
      rw [if_pos hx, hxa]
    · rw [if_neg (by simpa using hx)] at h
      rw [List.foldl_cons]
      rw [getBalances_foldl_single_match config a xs _ h]

/-- When the preferred key equals the gas key, the balance fold keeps
both balances equal and never records that key among the other
tokens. -/
lemma getBalances_foldl_shared_key (config : BotConfig)
    (hpg : config.preferredTokenKey = config.galaTokenKey) :
    ∀ (assets : List Asset) (acc : BalAcc),
      acc.preferredTokenBalance = acc.galaTokenBalance →
      (∀ tb ∈ acc.otherTokens, tb.tokenKey ≠ config.preferredTokenKey) →
      (assets.foldl (getBalancesStep config) acc).preferredTokenBalance =
          (assets.foldl (getBalancesStep config) acc).galaTokenBalance ∧
      ∀ tb ∈ (assets.foldl (getBalancesStep config) acc).otherTokens,
        tb.tokenKey ≠ config.preferredTokenKey
  | [], _, hbal, hoth => ⟨hbal, hoth⟩
  | x :: xs, acc, hbal, hoth => by
    rw [List.foldl_cons]
    apply getBalances_foldl_shared_key config hpg xs
    · unfold getBalancesStep
      by_cases hx : constructTokenKey x = config.preferredTokenKey
      · rw [if_pos hx, if_pos (hpg ▸ hx)]
      · rw [if_neg hx]
        have hxg : constructTokenKey x ≠ config.galaTokenKey := hpg ▸ hx
        rw [if_neg hxg]
        exact hbal
    · unfold getBalancesStep
      by_cases hx : constructTokenKey x = config.preferredTokenKey
      · rw [if_pos hx]
        exact hoth
      · rw [if_neg hx]
        have hxg : constructTokenKey x ≠ config.galaTokenKey := hpg ▸ hx
        rw [if_neg hxg]
        intro tb htb
        rcases List.mem_append.mp htb with h | h
        · exact hoth tb h
        · rw [List.mem_singleton] at h
          rw [h]
          exact hx

/-- C10: when the configured preferred token key equals the gas token
key, getBalances records the same value in preferredTokenBalance and
galaTokenBalance — the quantity of the unique matching asset when there
is exactly one — and that key never appears among otherTokens. -/
theorem c10_shared_preferred_gas_balances (config : BotConfig)
    (assets : List Asset) (count : ℕ)
    (hpg : config.preferredTokenKey = config.galaTokenKey) :
    (getBalances config assets count).preferredTokenBalance =
        (getBalances config assets count).galaTokenBalance ∧
    (∀ tb ∈ (getBalances config assets count).otherTokens,
      tb.tokenKey ≠ config.preferredTokenKey) ∧
    (∀ a : Asset,
      assets.filter
          (fun x => constructTokenKey x = config.preferredTokenKey) = [a] →
      (getBalances config assets count).preferredTokenBalance = a.quantity) := by
  have hmain := getBalances_foldl_shared_key config hpg assets ⟨0, 0, []⟩ rfl
    (by intro tb htb; cases htb)
  refine ⟨hmain.1, hmain.2, ?_⟩
  intro a ha
  exact getBalances_foldl_single_match config a assets ⟨0, 0, []⟩ ha

/-- C10 witness: with preferred = gas = GALA and a single GALA asset of
quantity 150, both recorded balances are 150 and no other token carries
the shared key. -/
theorem c10_shared_preferred_gas_balances_witness :
    (getBalances galaPreferredConfig [galaAsset] 1).preferredTokenBalance =
        (getBalances galaPreferredConfig [galaAsset] 1).galaTokenBalance ∧
    (getBalances galaPreferredConfig [galaAsset] 1).preferredTokenBalance =
      150 := by
  have h := c10_shared_preferred_gas_balances galaPreferredConfig [galaAsset]
    1 rfl
  refine ⟨h.1, h.2.2 galaAsset ?_⟩
  rfl

/-- The cache key does not depend on the order of the two token
arguments (both normalize to (min, max)). -/
lemma getCacheKey_comm (t0 t1 : String) (fee : ℕ) :
    getCacheKey t0 t1 fee = getCacheKey t1 t0 fee := by
  unfold getCacheKey
  rcases lt_trichotomy t0 t1 with h | h | h
  · rw [if_pos h, if_neg (lt_asymm h)]
  · subst h; rfl
  · rw [if_neg (lt_asymm h), if_pos h]

/-- Map.set followed by Map.get on the same key yields the new entry. -/
lemma cacheGet_cacheSet_self (k : String) (e : CachedPool) :
    ∀ c : Cache, cacheGet (cacheSet c k e) k = some e
  | [] => by simp [cacheGet, cacheSet, List.find?]
  | (k0, e0) :: rest => by
    unfold cacheSet
    by_cases hk : k0 = k
    · rw [if_pos hk]
      simp [cacheGet, List.find?]
    · rw [if_neg hk]
      have ih := cacheGet_cacheSet_self k e rest
      simpa [cacheGet, List.find?, hk] using ih

/-- After any getCompositePoolData call, the canonical key holds an
entry. -/
lemma getCompositePoolData_post_mem (cacheTTL : ℕ) (fetch : ℕ → PoolData)
    (c : Cache) (t0 t1 : String) (fee : ℕ) (now : ℕ) :
    ∃ e, cacheGet
        (getCompositePoolData cacheTTL fetch c t0 t1 fee now).2.1
        (getCacheKey t0 t1 fee) = some e := by
  unfold getCompositePoolData
  dsimp only
  cases hc : cacheGet c (getCacheKey t0 t1 fee) with
  | some cached =>
    dsimp only
    by_cases hnow : now < cached.expiresAt
    · rw [if_pos hnow]
      exact ⟨cached, hc⟩
    · rw [if_neg hnow]
      exact ⟨_, cacheGet_cacheSet_self _ _ c⟩
  | none =>
    dsimp only
    exact ⟨_, cacheGet_cacheSet_self _ _ c⟩

/-- A get inside the validity window of a cached entry returns it,
changes nothing, and performs no fetch. -/
lemma getCompositePoolData_hit (cacheTTL : ℕ) (fetch : ℕ → PoolData)
    (c : Cache) (t0 t1 : String) (fee : ℕ) (now : ℕ) (e : CachedPool)
    (hc : cacheGet c (getCacheKey t0 t1 fee) = some e)
    (hnow : now < e.expiresAt) :
    getCompositePoolData cacheTTL fetch c t0 t1 fee now = (e.data, c, false) := by
  unfold getCompositePoolData
  dsimp only
  rw [hc]
  dsimp only
  rw [if_pos hnow]

/-- A run of gets whose times all fall inside the validity window of
the cached entry fetches nothing and leaves the cache unchanged. -/
lemma runGets_within_window (cacheTTL : ℕ) (fetch : ℕ → PoolData)
    (t0 t1 : String) (fee : ℕ) :
    ∀ (calls : List (Bool × ℕ)) (c : Cache) (e : CachedPool),
      cacheGet c (getCacheKey t0 t1 fee) = some e →
      (∀ p ∈ calls, p.2 < e.expiresAt) →
      runGets cacheTTL fetch t0 t1 fee c calls = (c, 0)
  | [], _, _, _, _ => rfl
  | (swapArgs, t) :: calls, c, e, hc, htimes => by
    have ht : t < e.expiresAt := htimes (swapArgs, t) (List.mem_cons_self _ _)
    have hcall :
        (if swapArgs then getCompositePoolData cacheTTL fetch c t1 t0 fee t
          else getCompositePoolData cacheTTL fetch c t0 t1 fee t) =
          (e.data, c, false) := by
      cases swapArgs
      · rw [if_neg (by simp)]
        exact getCompositePoolData_hit cacheTTL fetch c t0 t1 fee t e hc ht
      · rw [if_pos rfl]
        exact getCompositePoolData_hit cacheTTL fetch c t1 t0 fee t e
          (by rw [getCacheKey_comm t1 t0]; exact hc) ht
    unfold runGets
    rw [hcall]
    dsimp only
    rw [runGets_within_window cacheTTL fetch t0 t1 fee calls c e hc
      (fun p hp => htimes p (List.mem_cons_of_mem _ hp))]
    simp

/-- C8: the pool snapshot cache key is order-insensitive in the two
tokens, and over any sequence of gets for one key whose times after
the first call stay below the expiry the first call leaves in place,
at most one transport fetch occurs. -/
theorem c8_cache_key_single_fetch :
    (∀ (t0 t1 : String) (fee : ℕ),
      getCacheKey t0 t1 fee = getCacheKey t1 t0 fee) ∧
    (∀ (cacheTTL : ℕ) (fetch : ℕ → PoolData) (t0 t1 : String) (fee : ℕ)
        (cache : Cache) (first : Bool × ℕ) (rest : List (Bool × ℕ)),
      (∀ p ∈ rest,
        p.2 < expiryOf (runGets cacheTTL fetch t0 t1 fee cache [first]).1
          (getCacheKey t0 t1 fee)) →
      (runGets cacheTTL fetch t0 t1 fee cache (first :: rest)).2 ≤ 1) := by
  refine ⟨getCacheKey_comm, ?_⟩
  intro cacheTTL fetch t0 t1 fee cache first rest hrest
  obtain ⟨swapArgs, t⟩ := first
  have hr :
      ∃ r, (if swapArgs then
          getCompositePoolData cacheTTL fetch cache t1 t0 fee t
        else getCompositePoolData cacheTTL fetch cache t0 t1 fee t) = r :=
    ⟨_, rfl⟩
  obtain ⟨r, hcall⟩ := hr
  have hpost : ∃ e, cacheGet r.2.1 (getCacheKey t0 t1 fee) = some e := by
    cases swapArgs
    · rw [if_neg (by simp)] at hcall
      rw [← hcall]
      exact getCompositePoolData_post_mem cacheTTL fetch cache t0 t1 fee t
    · rw [if_pos rfl] at hcall
      rw [← hcall, getCacheKey_comm t0 t1]
      exact getCompositePoolData_post_mem cacheTTL fetch cache t1 t0 fee t
  obtain ⟨e, he⟩ := hpost
  have hc1 : (runGets cacheTTL fetch t0 t1 fee cache [(swapArgs, t)]).1 =
      r.2.1 := by
    unfold runGets
    rw [hcall]
    rfl
  have hexp : expiryOf (runGets cacheTTL fetch t0 t1 fee cache
      [(swapArgs, t)]).1 (getCacheKey t0 t1 fee) = e.expiresAt := by
    rw [hc1]
    unfold expiryOf
    rw [he]
  have htimes : ∀ p ∈ rest, p.2 < e.expiresAt := by
    intro p hp
    have := hrest p hp
    rwa [hexp] at this
  have hrun := runGets_within_window cacheTTL fetch t0 t1 fee rest r.2.1 e
    he htimes
  show (runGets cacheTTL fetch t0 t1 fee cache ((swapArgs, t) :: rest)).2 ≤ 1
  unfold runGets
  rw [hcall]
  dsimp only
  rw [hrun]
  cases r.2.2 <;> simp

/-- C8 witness: the key symmetry at (X, Y, 500), and a two-call
sequence — the second call with swapped arguments, 100 ms into the
60000 ms window opened by the first — performing at most one fetch. -/
theorem c8_cache_key_single_fetch_witness :
    getCacheKey "X" "Y" 500 = getCacheKey "Y" "X" 500 ∧
    (runGets 60000 fetchXY "X" "Y" 500 [] [(false, 0), (true, 100)]).2 ≤ 1 := by
  refine ⟨c8_cache_key_single_fetch.1 "X" "Y" 500, ?_⟩
  refine c8_cache_key_single_fetch.2 60000 fetchXY "X" "Y" 500 [] (false, 0)
    [(true, 100)] ?_
  intro p hp
  rw [List.mem_singleton] at hp
  subst hp
  show 100 < expiryOf (runGets 60000 fetchXY "X" "Y" 500 [] [(false, 0)]).1
    (getCacheKey "X" "Y" 500)
  simp [runGets, getCompositePoolData, cacheGet, cacheSet, expiryOf,
    getCacheKey, fetchXY, List.find?]

/-- Inserting an opportunity into a list is invisible to the filter
selecting any other profit percentage, and prepends for its own:
orderedInsert places an element before strictly smaller percentages
only, so elements of equal percentage keep their relative order. -/
lemma filter_percentage_orderedInsert (c : ℚ) (a : ArbitrageOpportunity)
    (l : List ArbitrageOpportunity) :
    (l.orderedInsert moreProfitable a).filter
        (fun o => o.profitPercentage = c) =
      if a.profitPercentage = c then
        a :: l.filter (fun o => o.profitPercentage = c)
      else l.filter (fun o => o.profitPercentage = c) := by
  rw [List.orderedInsert_eq_take_drop, List.filter_append, List.filter_cons]
  simp only [decide_not]
  have htake : ∀ b ∈ l.takeWhile fun o => !decide (moreProfitable a o),
      a.profitPercentage < b.profitPercentage := by
    intro b hb
    have hmem := List.mem_takeWhile_imp hb
    simp only [Bool.not_eq_true', decide_eq_false_iff_not, moreProfitable,
      not_le] at hmem
    exact hmem
  have htakenil : a.profitPercentage = c →
      (l.takeWhile fun o => !decide (moreProfitable a o)).filter
        (fun o => o.profitPercentage = c) = [] := by
    intro hac
    rw [List.filter_eq_nil_iff]
    intro b hb
    simp only [decide_eq_true_eq]
    intro hbc
    exact (htake b hb).ne (hac.trans hbc.symm)
  have hsplit : l.filter (fun o => o.profitPercentage = c) =
      (l.takeWhile fun o => !decide (moreProfitable a o)).filter
          (fun o => o.profitPercentage = c) ++
        (l.dropWhile fun o => !decide (moreProfitable a o)).filter
          (fun o => o.profitPercentage = c) := by
    rw [← List.filter_append, List.takeWhile_append_dropWhile]
  by_cases hac : a.profitPercentage = c
  · rw [if_pos (by simpa using hac), hsplit, htakenil hac, if_pos hac]
    simp
  · rw [if_neg (by simpa using hac), hsplit, if_neg hac]

/-- Stability of the profitability sort: restricting the sorted output
to any fixed profit percentage reproduces the input order. -/
lemma filter_percentage_sortByProfitability (c : ℚ) :
    ∀ l : List ArbitrageOpportunity,
      (sortByProfitability l).filter (fun o => o.profitPercentage = c) =
        l.filter (fun o => o.profitPercentage = c)
  | [] => rfl
  | x :: l => by
    rw [show sortByProfitability (x :: l) =
        (sortByProfitability l).orderedInsert moreProfitable x from rfl]
    rw [filter_percentage_orderedInsert c x,
      filter_percentage_sortByProfitability c l, List.filter_cons]
    by_cases hxc : x.profitPercentage = c
    · rw [if_pos hxc, if_pos (by simpa using hxc)]
    · rw [if_neg hxc, if_neg (by simpa using hxc)]

/-- C9 counterexample: two surviving opportunities with equal profit
percentage, where the second has fewer hops and an earlier detection
time, come out of the filter-and-sort pipeline in input order: the
claimed tie-breaking by fewer hops and earlier detection does not
happen. -/
theorem c9_tiebreak_counterexample :
    sortByProfitability (filterProfitable [tieOppA, tieOppB] 1) =
      [tieOppA, tieOppB] ∧
    tieOppA.profitPercentage = tieOppB.profitPercentage ∧
    tieOppB.path.hops < tieOppA.path.hops ∧
    tieOppB.timestamp < tieOppA.timestamp := by
  refine ⟨?_, rfl, by decide, by decide⟩
  norm_num [filterProfitable, sortByProfitability, List.insertionSort,
    List.orderedInsert, moreProfitable, tieOppA, tieOppB, List.filter]

/-- C9 amended: the filtered-and-sorted output contains exactly the
opportunities with strictly positive net profit and profit percentage
at or above the threshold, as a permutation sorted by descending
profit percentage; ties are not broken by hops or detection time but
keep their input order (the sort is stable). -/
theorem c9_filter_sort_behavior :
    (∀ (opportunities : List ArbitrageOpportunity) (minProfitPercent : ℚ)
        (o : ArbitrageOpportunity),
      o ∈ filterProfitable opportunities minProfitPercent ↔
        o ∈ opportunities ∧ 0 < o.netProfit ∧
          minProfitPercent ≤ o.profitPercentage) ∧
    (∀ opportunities : List ArbitrageOpportunity,
      List.Perm (sortByProfitability opportunities) opportunities ∧
      (sortByProfitability opportunities).Sorted moreProfitable ∧
      ∀ c : ℚ,
        (sortByProfitability opportunities).filter
            (fun o => o.profitPercentage = c) =
          opportunities.filter (fun o => o.profitPercentage = c)) := by
  constructor
  · intro opportunities minProfitPercent o
    simp [filterProfitable, List.mem_filter, and_assoc]
  · intro opportunities
    exact ⟨List.perm_insertionSort moreProfitable opportunities,
      List.sorted_insertionSort moreProfitable opportunities,
      fun c => filter_percentage_sortByProfitability c opportunities⟩

end Theorems
